import Mathlib

/-!
Verification development for a software transactional memory (STM) library
(`tm.c` style implementation with per-segment `shared_mutex` locks, an undo
log, tombstoned frees and pending allocations).

The shallow embedding below translates the data structures (`segment`,
`region`, `log`, `transaction`) and operations (`tm_begin`, `tm_end`,
`tm_read`, `tm_write`, `tm_alloc`, `tm_free`, and the helpers `rollback`,
`check_lock`, `free_segments`) of the source into pure Lean functions.

Modelling choices:
- Machine memory is a flat address space `Nat → Nat` (one cell per byte);
  `memcpy` and buffer reads are explicit functions over it.
- A segment's lock (`shared_mutex` at address `&seg->lock`) is identified by
  the segment identity `sid` (segments are heap objects, one lock each); the
  lock state (exclusively held / number of shared holders) is stored in the
  segment record.
- Fallible allocations (`new (std::nothrow)`, `malloc`, `posix_memalign`)
  are driven by explicit boolean oracles passed to the operation.
- Each operation additionally returns the list of lock-acquisition attempts
  (`try_lock` / `try_lock_shared` calls) it performed, in order, so that
  statements about which acquisitions are attempted are expressible.
- Destroying the transaction handle (`delete trans`) is modelled by the
  operation returning `none` for the transaction.
-/

namespace STM

/-- Flat byte-addressed memory. -/
abbrev Mem := Nat → Nat

/-- `memcpy m dst src` writes the bytes of `src` at addresses
`dst, dst+1, ...` of `m`. -/
def memcpy (m : Mem) (dst : Nat) (src : List Nat) : Mem :=
  fun a => if dst ≤ a ∧ a < dst + src.length then src.getD (a - dst) 0 else m a

/-- Read `n` bytes starting at address `src`. -/
def readMem (m : Mem) (src n : Nat) : List Nat :=
  (List.range n).map (fun i => m (src + i))

/-- `struct segment { shared_mutex lock; byte* mem; size_t size; bool freed; }`.
`sid` is the identity of the heap object (and hence of its lock);
`lockExcl` / `lockShared` are the state of the `shared_mutex`. -/
structure Segment where
  sid : Nat
  mem : Nat
  size : Nat
  freed : Bool
  lockExcl : Bool
  lockShared : Nat
  deriving DecidableEq

/-- `struct region { void* start; vector<segment*> segments; size_t size; size_t align; }`. -/
structure Region where
  start : Nat
  segments : List Segment
  size : Nat
  align : Nat
  deriving DecidableEq

/-- The shared state: the region's structure plus the byte contents of the
whole address space. -/
structure STMState where
  region : Region
  mem : Mem

/-- `struct log { size_t size; void* location; void* old_data; }` with the
`old_data` buffer contents inlined. -/
structure Log where
  size : Nat
  location : Nat
  old_data : List Nat
  deriving DecidableEq

/-- `struct transaction`: the lock vectors store lock identities (= segment
`sid`s), `to_free` and `new_segments` store segment identities. -/
structure Transaction where
  logs : List Log
  to_free : List Nat
  to_free_locks : List Nat
  new_segments : List Nat
  new_seg_locks : List Nat
  is_ro : Bool
  locks : List Nat
  read_locks : List Nat
  deriving DecidableEq

/-- `shared_mutex::try_lock`: succeeds iff nobody holds the lock. -/
def try_lock (s : Segment) : Bool := !s.lockExcl && s.lockShared == 0

/-- `shared_mutex::try_lock_shared`: succeeds iff no exclusive holder. -/
def try_lock_shared (s : Segment) : Bool := !s.lockExcl

/-- Update the segment (heap object) with identity `sid`. -/
def updateSeg (st : STMState) (sid : Nat) (f : Segment → Segment) : STMState :=
  { st with region := { st.region with
      segments := st.region.segments.map (fun s => if s.sid == sid then f s else s) } }

/-- Effect of a successful `try_lock` on segment `sid`. -/
def acquireExcl (st : STMState) (sid : Nat) : STMState :=
  updateSeg st sid (fun s => { s with lockExcl := true })

/-- Effect of a successful `try_lock_shared` on segment `sid`. -/
def acquireShared (st : STMState) (sid : Nat) : STMState :=
  updateSeg st sid (fun s => { s with lockShared := s.lockShared + 1 })

/-- `lock->unlock()`. -/
def unlockExcl (st : STMState) (sid : Nat) : STMState :=
  updateSeg st sid (fun s => { s with lockExcl := false })

/-- `lock->unlock_shared()`. -/
def unlockShared (st : STMState) (sid : Nat) : STMState :=
  updateSeg st sid (fun s => { s with lockShared := s.lockShared - 1 })

/-- `seg->freed = b`. -/
def setFreed (st : STMState) (sid : Nat) (b : Bool) : STMState :=
  updateSeg st sid (fun s => { s with freed := b })

/-- `for (auto lock : ids) lock->unlock();` -/
def unlockExclList (st : STMState) (ids : List Nat) : STMState :=
  ids.foldl (fun st i => unlockExcl st i) st

/-- `for (auto lock : ids) lock->unlock_shared();` -/
def unlockSharedList (st : STMState) (ids : List Nat) : STMState :=
  ids.foldl (fun st i => unlockShared st i) st

/-- `for (auto segment : ids) segment->freed = false;` -/
def clearFreedList (st : STMState) (ids : List Nat) : STMState :=
  ids.foldl (fun st i => setFreed st i false) st

/-- `free_segments(tx, to_free)`: erase from `region.segments` every segment
whose identity is listed (the source scans and erases each match, freeing
its buffer). -/
def free_segments (r : Region) (ids : List Nat) : Region :=
  { r with segments := r.segments.filter (fun s => !(ids.contains s.sid)) }

/-- Replaying the undo log front-to-back:
`for (auto change : logs) memcpy(change->location, change->old_data, change->size);` -/
def applyLogs (logs : List Log) (m : Mem) : Mem :=
  logs.foldl (fun m ch => memcpy m ch.location ch.old_data) m

/-- `check_lock(tx, lock)`: true iff the lock is recorded in `locks`,
`read_locks`, `new_seg_locks` or `to_free_locks`. -/
def check_lock (t : Transaction) (lock : Nat) : Bool :=
  decide (lock ∈ t.locks) || decide (lock ∈ t.read_locks) ||
  decide (lock ∈ t.new_seg_locks) || decide (lock ∈ t.to_free_locks)

/-- `rollback(tx)`: for a read-write transaction, replay the undo log,
clear the tombstones of `to_free`, destroy the `new_segments`, release the
exclusive locks in `locks` and then in `to_free_locks`; in all cases release
the shared locks in `read_locks`.  (`delete trans` is the caller returning
`none` for the transaction.) -/
def rollback (st : STMState) (trans : Transaction) : STMState :=
  let st1 :=
    if trans.is_ro then st
    else
      let stm := { st with mem := applyLogs trans.logs st.mem }
      let stf := clearFreedList stm trans.to_free
      let sta := { stf with region := free_segments stf.region trans.new_segments }
      let stl := unlockExclList sta trans.locks
      unlockExclList stl trans.to_free_locks
  unlockSharedList st1 trans.read_locks

/-- The segment-location loop of `tm_read`/`tm_write`: first segment with
`addr >= seg->mem && addr < seg->mem + seg->size`. -/
def findSeg (segs : List Segment) (a : Nat) : Option Segment :=
  segs.find? (fun s => decide (s.mem ≤ a) && decide (a < s.mem + s.size))

/-- The segment-location loop of `tm_free`: first segment with
`target == seg->mem`. -/
def findSegBase (segs : List Segment) (a : Nat) : Option Segment :=
  segs.find? (fun s => a == s.mem)

/-- A lock-acquisition attempt performed by an operation. -/
inductive LkEv where
  | tryExcl (sid : Nat) (ok : Bool)
  | tryShared (sid : Nat) (ok : Bool)
  deriving DecidableEq

/-- Result of `tm_read`: the continue flag, the contents of the private
target buffer afterwards, the shared state, the surviving transaction
(`none` = handle destroyed), and the acquisition attempts performed. -/
structure ReadResult where
  ok : Bool
  target : List Nat
  st : STMState
  tx : Option Transaction
  events : List LkEv

/-- Result of `tm_write` / `tm_free`. -/
structure OpResult where
  ok : Bool
  st : STMState
  tx : Option Transaction
  events : List LkEv

/-- `tm_begin(shared, is_ro)` (the allocation of the handle succeeded). -/
def tm_begin (is_ro : Bool) : Transaction :=
  { logs := [], to_free := [], to_free_locks := [], new_segments := [],
    new_seg_locks := [], is_ro := is_ro, locks := [], read_locks := [] }

/-- `tm_read(shared, tx, source, size, target)`. `tgt` holds the prior
contents of the private target buffer. -/
def tm_read (st : STMState) (trans : Transaction) (source n : Nat)
    (tgt : List Nat) : ReadResult :=
  match findSeg st.region.segments source with
  | none => ⟨false, tgt, rollback st trans, none, []⟩
  | some seg =>
    if check_lock trans seg.sid then
      if seg.freed then ⟨false, tgt, rollback st trans, none, []⟩
      else ⟨true, readMem st.mem source n ++ tgt.drop n, st, some trans, []⟩
    else
      if try_lock_shared seg then
        let st1 := acquireShared st seg.sid
        let t1 := { trans with read_locks := trans.read_locks ++ [seg.sid] }
        if seg.freed then
          ⟨false, tgt, rollback st1 t1, none, [LkEv.tryShared seg.sid true]⟩
        else
          ⟨true, readMem st1.mem source n ++ tgt.drop n, st1, some t1,
            [LkEv.tryShared seg.sid true]⟩
      else ⟨false, tgt, rollback st trans, none, [LkEv.tryShared seg.sid false]⟩

/-- The body of `tm_write` run once the segment is located and its lock is
held: the tombstone check, the two fallible allocations for the undo
record, the prepend to `logs` and the in-place `memcpy`. -/
def writeBody (st : STMState) (trans : Transaction) (source : List Nat)
    (n target : Nat) (seg : Segment) (logOk oldOk : Bool)
    (evs : List LkEv) : OpResult :=
  if seg.freed then ⟨false, rollback st trans, none, evs⟩
  else if !logOk then ⟨false, rollback st trans, none, evs⟩
  else if !oldOk then ⟨false, rollback st trans, none, evs⟩
  else
    let ch : Log := { size := n, location := target,
                      old_data := readMem st.mem target n }
    let t1 := { trans with logs := ch :: trans.logs }
    ⟨true, { st with mem := memcpy st.mem target (source.take n) }, some t1, evs⟩

/-- `tm_write(shared, tx, source, size, target)`. `logOk` / `oldOk` are the
outcomes of the `new log()` and `malloc(size)` allocations. -/
def tm_write (st : STMState) (trans : Transaction) (source : List Nat)
    (n target : Nat) (logOk oldOk : Bool) : OpResult :=
  match findSeg st.region.segments target with
  | none => ⟨false, rollback st trans, none, []⟩
  | some seg =>
    if check_lock trans seg.sid then
      writeBody st trans source n target seg logOk oldOk []
    else
      if try_lock seg then
        writeBody (acquireExcl st seg.sid)
          { trans with locks := trans.locks ++ [seg.sid] }
          source n target seg logOk oldOk [LkEv.tryExcl seg.sid true]
      else ⟨false, rollback st trans, none, [LkEv.tryExcl seg.sid false]⟩

/-- `Alloc` outcome of `tm_alloc`. -/
inductive Alloc where
  | success
  | nomem
  | abort
  deriving DecidableEq

/-- Result of `tm_alloc`: outcome, the value of `*target` afterwards, the
shared state and the transaction (never destroyed by `tm_alloc`). -/
structure AllocResult where
  res : Alloc
  target : Nat
  st : STMState
  tx : Transaction

/-- `tm_alloc(shared, tx, size, target)`. `segOk` / `memOk` are the outcomes
of `new segment()` and `posix_memalign`; `newSid` / `newBase` are the fresh
segment identity and buffer base chosen by the allocator; `tgt0` is the
prior value of `*target`. -/
def tm_alloc (st : STMState) (trans : Transaction) (size : Nat)
    (segOk memOk : Bool) (newSid newBase tgt0 : Nat) : AllocResult :=
  if !segOk then ⟨Alloc.nomem, tgt0, st, trans⟩
  else if !memOk then ⟨Alloc.nomem, tgt0, st, trans⟩
  else
    let seg : Segment := { sid := newSid, mem := newBase, size := size,
                           freed := false, lockExcl := true, lockShared := 0 }
    let m := memcpy st.mem newBase (List.replicate size 0)
    let t1 := { trans with
      new_seg_locks := trans.new_seg_locks ++ [newSid],
      new_segments := trans.new_segments ++ [newSid] }
    let r1 := { st.region with segments := st.region.segments ++ [seg] }
    ⟨Alloc.success, newBase, { region := r1, mem := m }, t1⟩

/-- `tm_free(shared, tx, target)`.  Note the source attempts `try_lock`
first and consults `check_lock` only if that fails; on success (either way)
it pushes the lock onto `to_free_locks` and sets `seg->freed = true` — it
does not add the segment to `to_free`. -/
def tm_free (st : STMState) (trans : Transaction) (target : Nat) : OpResult :=
  match findSegBase st.region.segments target with
  | none => ⟨false, rollback st trans, none, []⟩
  | some seg =>
    if try_lock seg then
      let st1 := acquireExcl st seg.sid
      let t1 := { trans with to_free_locks := trans.to_free_locks ++ [seg.sid] }
      ⟨true, setFreed st1 seg.sid true, some t1, [LkEv.tryExcl seg.sid true]⟩
    else
      if check_lock trans seg.sid then
        let t1 := { trans with to_free_locks := trans.to_free_locks ++ [seg.sid] }
        ⟨true, setFreed st seg.sid true, some t1, [LkEv.tryExcl seg.sid false]⟩
      else ⟨false, rollback st trans, none, [LkEv.tryExcl seg.sid false]⟩

/-- Result of `tm_end`. -/
structure EndResult where
  committed : Bool
  st : STMState

/-- `tm_end(shared, tx)`: release the shared locks, then for a read-write
transaction physically delete the `to_free` segments, release the `locks`
and `new_seg_locks` exclusive locks and drop the undo log; always commits. -/
def tm_end (st : STMState) (trans : Transaction) : EndResult :=
  let st1 := unlockSharedList st trans.read_locks
  if trans.is_ro then ⟨true, st1⟩
  else
    let st2 := { st1 with region := free_segments st1.region trans.to_free }
    let st3 := unlockExclList st2 trans.locks
    let st4 := unlockExclList st3 trans.new_seg_locks
    ⟨true, st4⟩

/-- A read-write transaction's execution trace consisting of successful
`tm_write` steps, starting from state `st0` and transaction `t0`. -/
inductive WriteSeq : STMState → Transaction → STMState → Transaction → Prop where
  | refl (st : STMState) (t : Transaction) : WriteSeq st t st t
  | step {st0 : STMState} {t0 : Transaction} {st : STMState} {t : Transaction}
      (src : List Nat) (n target : Nat) (logOk oldOk : Bool) {t' : Transaction}
      (hseq : WriteSeq st0 t0 st t)
      (hok : (tm_write st t src n target logOk oldOk).ok = true)
      (htx : (tm_write st t src n target logOk oldOk).tx = some t') :
      WriteSeq st0 t0 (tm_write st t src n target logOk oldOk).st t'

/-! Concrete example state used by the witnesses: a region with two
segments (`sid 0` at addresses 100..107, `sid 1` at 200..207), initial
memory holding `a % 7` at address `a`, and fresh transactions. -/

/-- First example segment: addresses 100..107, unlocked, live. -/
def seg0 : Segment :=
  { sid := 0, mem := 100, size := 8, freed := false, lockExcl := false, lockShared := 0 }

/-- Second example segment: addresses 200..207, unlocked, live. -/
def seg1 : Segment :=
  { sid := 1, mem := 200, size := 8, freed := false, lockExcl := false, lockShared := 0 }

/-- Example initial memory contents. -/
def mem0 : Mem := fun a => a % 7

/-- Example initial state. -/
def st0 : STMState :=
  { region := { start := 100, segments := [seg0, seg1], size := 8, align := 8 },
    mem := mem0 }

/-- A fresh read-write transaction. -/
def tx0 : Transaction := tm_begin false

/-- A fresh read-only transaction. -/
def txRO : Transaction := tm_begin true

/-- Example: write bytes 1,2,3,4 at addresses 100..103. -/
def wr1 : OpResult := tm_write st0 tx0 [1, 2, 3, 4] 4 100 true true

/-- The transaction surviving `wr1`. -/
def tx1 : Transaction := wr1.tx.getD (tm_begin false)

/-- Example: overlapping second write of bytes 9,9,9,9 at addresses 102..105. -/
def wr2 : OpResult := tm_write wr1.st tx1 [9, 9, 9, 9] 4 102 true true

/-- The transaction surviving `wr2`. -/
def tx2 : Transaction := wr2.tx.getD (tm_begin false)

/-- Example: free segment `sid 0` (base 100) after having written to it. -/
def fr1 : OpResult := tm_free wr1.st tx1 100

/-- The transaction surviving `fr1`. -/
def tx1f : Transaction := fr1.tx.getD (tm_begin false)

/-- Example: free segment `sid 1` (base 200) in a fresh transaction. -/
def fr3 : OpResult := tm_free st0 tx0 200

/-- The transaction surviving `fr3`. -/
def tx3 : Transaction := fr3.tx.getD (tm_begin false)

/-- Example: commit the transaction that freed segment `sid 1`. -/
def en3 : EndResult := tm_end fr3.st tx3

/-- Example state with segment `sid 0` tombstoned (by some transaction). -/
def stT : STMState :=
  { region := { start := 100, segments := [{ seg0 with freed := true }, seg1],
                size := 8, align := 8 },
    mem := mem0 }

/-- The lock multiset of a transaction: every lock vector concatenated
(held exclusive, held shared, pending-alloc locks, pending-free locks). -/
def lockBag (t : Transaction) : List Nat :=
  t.locks ++ t.read_locks ++ t.new_seg_locks ++ t.to_free_locks

/-- The invariant claimed by the specification: a given lock appears at
most once across the transaction's lock sets. -/
def AtMostOnce (t : Transaction) : Prop :=
  ∀ x : Nat, (lockBag t).count x ≤ 1

/-! ## Basic lemmas about the memory model -/

theorem memcpy_in (m : Mem) (dst : Nat) (src : List Nat) (a : Nat)
    (h1 : dst ≤ a) (h2 : a < dst + src.length) :
    memcpy m dst src a = src.getD (a - dst) 0 := by
  simp [memcpy, h1, h2]

theorem memcpy_out (m : Mem) (dst : Nat) (src : List Nat) (a : Nat)
    (h : a < dst ∨ dst + src.length ≤ a) :
    memcpy m dst src a = m a := by
  unfold memcpy
  rw [if_neg (by omega)]

theorem readMem_length (m : Mem) (s n : Nat) : (readMem m s n).length = n := by
  simp [readMem]

theorem readMem_getD (m : Mem) (s n i : Nat) (h : i < n) :
    (readMem m s n).getD i 0 = m (s + i) := by
  unfold readMem
  rw [List.getD_eq_getElem?_getD, List.getElem?_map, List.getElem?_range h]
  rfl

theorem readMem_memcpy (m : Mem) (dst : Nat) (src : List Nat) :
    readMem (memcpy m dst src) dst src.length = src := by
  apply List.ext_getElem (by simp [readMem_length])
  intro i h1 h2
  simp only [readMem, List.getElem_map, List.getElem_range]
  rw [memcpy_in _ _ _ _ (Nat.le_add_right _ _) (by omega),
    Nat.add_sub_cancel_left]
  exact List.getD_eq_getElem src 0 h2

theorem memcpy_cancel (m : Mem) (dst n : Nat) (l1 : List Nat)
    (h : l1.length ≤ n) :
    memcpy (memcpy m dst l1) dst (readMem m dst n) = m := by
  funext a
  by_cases hin : dst ≤ a ∧ a < dst + n
  · rw [memcpy_in _ _ _ _ hin.1 (by rw [readMem_length]; omega),
      readMem_getD _ _ _ _ (by omega)]
    congr 1
    omega
  · rw [memcpy_out _ _ _ _ (by rw [readMem_length]; omega),
      memcpy_out _ _ _ _ (by omega)]

theorem applyLogs_cons (ch : Log) (logs : List Log) (m : Mem) :
    applyLogs (ch :: logs) m = applyLogs logs (memcpy m ch.location ch.old_data) :=
  rfl

/-! ## Lemmas about segment location and lock bookkeeping -/

theorem findSeg_map (segs : List Segment) (f : Segment → Segment) (a : Nat)
    (hmem : ∀ s, (f s).mem = s.mem) (hsize : ∀ s, (f s).size = s.size) :
    findSeg (segs.map f) a = (findSeg segs a).map f := by
  unfold findSeg
  have hp : ((fun s => decide (s.mem ≤ a) && decide (a < s.mem + s.size)) ∘ f) =
      (fun s : Segment => decide (s.mem ≤ a) && decide (a < s.mem + s.size)) := by
    funext s
    simp [Function.comp, hmem, hsize]
  rw [List.find?_map, hp]

theorem findSeg_acquireExcl (st : STMState) (sid a : Nat) :
    findSeg (acquireExcl st sid).region.segments a =
      (findSeg st.region.segments a).map
        (fun s => if s.sid == sid then { s with lockExcl := true } else s) := by
  unfold acquireExcl updateSeg
  exact findSeg_map _ _ _ (fun s => by dsimp only; split <;> rfl)
    (fun s => by dsimp only; split <;> rfl)

theorem check_lock_iff (t : Transaction) (l : Nat) :
    check_lock t l = true ↔ l ∈ lockBag t := by
  simp [check_lock, lockBag, or_assoc]

/-! ## Characterization of the operations' success paths -/

theorem tm_read_ok_char (st : STMState) (t : Transaction) (s n : Nat)
    (tgt : List Nat) :
    (tm_read st t s n tgt).ok = true →
    (tm_read st t s n tgt).st.mem = st.mem ∧
    (tm_read st t s n tgt).target = readMem st.mem s n ++ tgt.drop n := by
  unfold tm_read
  cases hf : findSeg st.region.segments s with
  | none => intro h; simp at h
  | some seg =>
    dsimp only
    by_cases hc : check_lock t seg.sid
    · rw [if_pos hc]
      by_cases hfr : seg.freed = true
      · rw [if_pos hfr]; intro h; simp at h
      · rw [if_neg hfr]; intro _; exact ⟨rfl, rfl⟩
    · rw [if_neg hc]
      by_cases htl : try_lock_shared seg = true
      · rw [if_pos htl]
        by_cases hfr : seg.freed = true
        · rw [if_pos hfr]; intro h; simp at h
        · rw [if_neg hfr]; intro _; exact ⟨rfl, rfl⟩
      · rw [if_neg htl]; intro h; simp at h

theorem tm_read_tx_char (st : STMState) (t : Transaction) (s n : Nat)
    (tgt : List Nat) (t' : Transaction) :
    (tm_read st t s n tgt).tx = some t' →
    t'.locks = t.locks ∧ t'.new_seg_locks = t.new_seg_locks ∧
    t'.to_free_locks = t.to_free_locks ∧ t'.logs = t.logs ∧
    (t'.read_locks = t.read_locks ∨
      ∃ seg, findSeg st.region.segments s = some seg ∧
        check_lock t seg.sid = false ∧
        t'.read_locks = t.read_locks ++ [seg.sid]) := by
  unfold tm_read
  cases hf : findSeg st.region.segments s with
  | none => intro h; simp at h
  | some seg =>
    dsimp only
    by_cases hc : check_lock t seg.sid
    · rw [if_pos hc]
      by_cases hfr : seg.freed = true
      · rw [if_pos hfr]; intro h; simp at h
      · rw [if_neg hfr]; intro h
        cases h
        exact ⟨rfl, rfl, rfl, rfl, Or.inl rfl⟩
    · rw [if_neg hc]
      by_cases htl : try_lock_shared seg = true
      · rw [if_pos htl]
        by_cases hfr : seg.freed = true
        · rw [if_pos hfr]; intro h; simp at h
        · rw [if_neg hfr]; intro h
          cases h
          exact ⟨rfl, rfl, rfl, rfl, Or.inr ⟨seg, rfl, by simpa using hc, rfl⟩⟩
      · rw [if_neg htl]; intro h; simp at h

theorem tm_write_ok_char (st : STMState) (t : Transaction) (src : List Nat)
    (n tg : Nat) (lOk oOk : Bool) :
    (tm_write st t src n tg lOk oOk).ok = true →
    ∃ t' seg seg',
      (tm_write st t src n tg lOk oOk).tx = some t' ∧
      findSeg st.region.segments tg = some seg ∧
      seg.freed = false ∧
      t'.logs = { size := n, location := tg,
                  old_data := readMem st.mem tg n } :: t.logs ∧
      t'.is_ro = t.is_ro ∧
      t'.read_locks = t.read_locks ∧
      t'.new_seg_locks = t.new_seg_locks ∧
      t'.to_free_locks = t.to_free_locks ∧
      t'.to_free = t.to_free ∧
      t'.new_segments = t.new_segments ∧
      (t'.locks = t.locks ∨
        (check_lock t seg.sid = false ∧ t'.locks = t.locks ++ [seg.sid])) ∧
      (tm_write st t src n tg lOk oOk).st.mem = memcpy st.mem tg (src.take n) ∧
      findSeg (tm_write st t src n tg lOk oOk).st.region.segments tg = some seg' ∧
      seg'.freed = false ∧ seg'.sid = seg.sid ∧
      check_lock t' seg'.sid = true := by
  unfold tm_write writeBody
  cases hf : findSeg st.region.segments tg with
  | none => intro h; simp at h
  | some seg =>
    dsimp only
    by_cases hc : check_lock t seg.sid
    · rw [if_pos hc]
      by_cases hfr : seg.freed = true
      · rw [if_pos hfr]; intro h; simp at h
      · rw [if_neg hfr]
        by_cases hl : lOk = true
        · by_cases ho : oOk = true
          · simp only [hl, ho, Bool.not_true, Bool.false_eq_true, if_false]
            intro _
            exact ⟨_, seg, seg, rfl, rfl, by simpa using hfr, rfl, rfl, rfl,
              rfl, rfl, rfl, rfl, Or.inl rfl, trivial, hf, by simpa using hfr,
              rfl, hc⟩
          · simp [hl, ho]
        · simp [hl]
    · rw [if_neg hc]
      by_cases htl : try_lock seg = true
      · rw [if_pos htl]
        by_cases hfr : seg.freed = true
        · rw [if_pos hfr]; intro h; simp at h
        · rw [if_neg hfr]
          by_cases hl : lOk = true
          · by_cases ho : oOk = true
            · simp only [hl, ho, Bool.not_true, Bool.false_eq_true, if_false]
              intro _
              refine ⟨_, seg, { seg with lockExcl := true }, rfl, rfl,
                by simpa using hfr, rfl, rfl, rfl, rfl, rfl, rfl, rfl,
                Or.inr ⟨by simpa using hc, rfl⟩, rfl, ?_, by simpa using hfr,
                rfl, ?_⟩
              · show findSeg (acquireExcl st seg.sid).region.segments tg = _
                rw [findSeg_acquireExcl, hf]
                simp
              · simp [check_lock]
            · simp [hl, ho]
          · simp [hl]
      · rw [if_neg htl]; intro h; simp at h

theorem tm_free_tx_char (st : STMState) (t : Transaction) (tg : Nat)
    (t' : Transaction) :
    (tm_free st t tg).tx = some t' →
    ∃ seg, findSegBase st.region.segments tg = some seg ∧
      t'.locks = t.locks ∧ t'.read_locks = t.read_locks ∧
      t'.new_seg_locks = t.new_seg_locks ∧ t'.logs = t.logs ∧
      t'.to_free = t.to_free ∧ t'.is_ro = t.is_ro ∧
      t'.to_free_locks = t.to_free_locks ++ [seg.sid] := by
  unfold tm_free
  cases hf : findSegBase st.region.segments tg with
  | none => intro h; simp at h
  | some seg =>
    dsimp only
    by_cases htl : try_lock seg = true
    · rw [if_pos htl]; intro h; cases h
      exact ⟨seg, rfl, rfl, rfl, rfl, rfl, rfl, rfl, rfl⟩
    · rw [if_neg htl]
      by_cases hc : check_lock t seg.sid
      · rw [if_pos hc]; intro h; cases h
        exact ⟨seg, rfl, rfl, rfl, rfl, rfl, rfl, rfl, rfl⟩
      · rw [if_neg hc]; intro h; simp at h

/-! ## Characterization of the operations' abort paths -/

theorem tm_read_abort_char (st : STMState) (t : Transaction) (s n : Nat)
    (tgt : List Nat) :
    (tm_read st t s n tgt).ok = false →
    (tm_read st t s n tgt).tx = none ∧
    ((tm_read st t s n tgt).st = rollback st t ∨
      ∃ seg, findSeg st.region.segments s = some seg ∧ seg.freed = true ∧
        check_lock t seg.sid = false ∧ try_lock_shared seg = true ∧
        (tm_read st t s n tgt).st =
          rollback (acquireShared st seg.sid)
            { t with read_locks := t.read_locks ++ [seg.sid] }) := by
  unfold tm_read
  cases hf : findSeg st.region.segments s with
  | none => intro _; exact ⟨rfl, Or.inl rfl⟩
  | some seg =>
    dsimp only
    by_cases hc : check_lock t seg.sid
    · rw [if_pos hc]
      by_cases hfr : seg.freed = true
      · rw [if_pos hfr]; intro _; exact ⟨rfl, Or.inl rfl⟩
      · rw [if_neg hfr]; intro h; simp at h
    · rw [if_neg hc]
      by_cases htl : try_lock_shared seg = true
      · rw [if_pos htl]
        by_cases hfr : seg.freed = true
        · rw [if_pos hfr]; intro _
          exact ⟨rfl, Or.inr ⟨seg, rfl, hfr, by simpa using hc, htl, rfl⟩⟩
        · rw [if_neg hfr]; intro h; simp at h
      · rw [if_neg htl]; intro _; exact ⟨rfl, Or.inl rfl⟩

theorem tm_write_abort_char (st : STMState) (t : Transaction) (src : List Nat)
    (n tg : Nat) (lOk oOk : Bool) :
    (tm_write st t src n tg lOk oOk).ok = false →
    (tm_write st t src n tg lOk oOk).tx = none ∧
    ((tm_write st t src n tg lOk oOk).st = rollback st t ∨
      ∃ seg, findSeg st.region.segments tg = some seg ∧
        check_lock t seg.sid = false ∧ try_lock seg = true ∧
        (tm_write st t src n tg lOk oOk).st =
          rollback (acquireExcl st seg.sid)
            { t with locks := t.locks ++ [seg.sid] }) := by
  unfold tm_write writeBody
  cases hf : findSeg st.region.segments tg with
  | none => intro _; exact ⟨rfl, Or.inl rfl⟩
  | some seg =>
    dsimp only
    by_cases hc : check_lock t seg.sid
    · rw [if_pos hc]
      by_cases hfr : seg.freed = true
      · rw [if_pos hfr]; intro _; exact ⟨rfl, Or.inl rfl⟩
      · rw [if_neg hfr]
        by_cases hl : lOk = true
        · by_cases ho : oOk = true
          · simp [hl, ho]
          · simp only [Bool.not_eq_true] at ho
            simp only [hl, ho, Bool.not_true, Bool.not_false, Bool.false_eq_true,
              if_false, if_true]
            intro _; exact ⟨by trivial, Or.inl (by trivial)⟩
        · simp only [Bool.not_eq_true] at hl
          simp only [hl, Bool.not_false, if_true]
          intro _; exact ⟨by trivial, Or.inl (by trivial)⟩
    · rw [if_neg hc]
      by_cases htl : try_lock seg = true
      · rw [if_pos htl]
        by_cases hfr : seg.freed = true
        · rw [if_pos hfr]; intro _
          exact ⟨rfl, Or.inr ⟨seg, rfl, by simpa using hc, htl, rfl⟩⟩
        · rw [if_neg hfr]
          by_cases hl : lOk = true
          · by_cases ho : oOk = true
            · simp [hl, ho]
            · simp only [Bool.not_eq_true] at ho
              simp only [hl, ho, Bool.not_true, Bool.not_false, Bool.false_eq_true,
                if_false, if_true]
              intro _
              exact ⟨by trivial, Or.inr ⟨seg, by trivial, by simpa using hc, htl, by trivial⟩⟩
          · simp only [Bool.not_eq_true] at hl
            simp only [hl, Bool.not_false, if_true]
            intro _
            exact ⟨by trivial, Or.inr ⟨seg, by trivial, by simpa using hc, htl, by trivial⟩⟩
      · rw [if_neg htl]; intro _; exact ⟨rfl, Or.inl rfl⟩

theorem tm_free_abort_char (st : STMState) (t : Transaction) (tg : Nat) :
    (tm_free st t tg).ok = false →
    (tm_free st t tg).tx = none ∧ (tm_free st t tg).st = rollback st t := by
  unfold tm_free
  cases hf : findSegBase st.region.segments tg with
  | none => intro _; exact ⟨rfl, rfl⟩
  | some seg =>
    dsimp only
    by_cases htl : try_lock seg = true
    · rw [if_pos htl]; intro h; simp at h
    · rw [if_neg htl]
      by_cases hc : check_lock t seg.sid
      · rw [if_pos hc]; intro h; simp at h
      · rw [if_neg hc]; intro _; exact ⟨rfl, rfl⟩

/-! ## Lock-acquisition events -/

theorem tm_read_events_held (st : STMState) (t : Transaction) (s n : Nat)
    (tgt : List Nat) (seg : Segment)
    (hf : findSeg st.region.segments s = some seg)
    (hc : check_lock t seg.sid = true) :
    (tm_read st t s n tgt).events = [] := by
  unfold tm_read
  rw [hf]
  dsimp only
  rw [if_pos hc]
  split <;> rfl

theorem tm_write_events_held (st : STMState) (t : Transaction) (src : List Nat)
    (n tg : Nat) (lOk oOk : Bool) (seg : Segment)
    (hf : findSeg st.region.segments tg = some seg)
    (hc : check_lock t seg.sid = true) :
    (tm_write st t src n tg lOk oOk).events = [] := by
  unfold tm_write writeBody
  rw [hf]
  dsimp only
  rw [if_pos hc]
  split
  · rfl
  · split
    · rfl
    · split <;> rfl

theorem tm_free_events (st : STMState) (t : Transaction) (tg : Nat)
    (seg : Segment) (hf : findSegBase st.region.segments tg = some seg) :
    (tm_free st t tg).events = [LkEv.tryExcl seg.sid (try_lock seg)] := by
  unfold tm_free
  rw [hf]
  dsimp only
  by_cases htl : try_lock seg = true
  · rw [if_pos htl, htl]
  · simp only [Bool.not_eq_true] at htl
    rw [htl]
    simp only [Bool.false_eq_true, if_false]
    by_cases hc : check_lock t seg.sid
    · rw [if_pos hc]
    · rw [if_neg hc]

/-! ## Unlock folds and read-only rollback -/

theorem unlockSharedList_mem (st : STMState) (ids : List Nat) :
    (unlockSharedList st ids).mem = st.mem := by
  induction ids generalizing st with
  | nil => rfl
  | cons i ids ih =>
    show (unlockSharedList (unlockShared st i) ids).mem = st.mem
    rw [ih]
    rfl

theorem unlockSharedList_segments (st : STMState) (ids : List Nat) :
    (unlockSharedList st ids).region.segments =
      st.region.segments.map
        (fun s => { s with lockShared := s.lockShared - ids.count s.sid }) := by
  induction ids generalizing st with
  | nil =>
    show st.region.segments = _
    have h : (fun s : Segment =>
        { s with lockShared := s.lockShared - List.count s.sid [] }) = id := by
      funext s
      cases s
      simp
    rw [h, List.map_id]
  | cons i ids ih =>
    show (unlockSharedList (unlockShared st i) ids).region.segments = _
    rw [ih]
    show (st.region.segments.map _).map _ = _
    rw [List.map_map]
    congr 1
    funext s
    simp only [Function.comp]
    by_cases hs : s.sid = i
    · rw [if_pos (by simpa using hs)]
      have h2 : (i :: ids).count s.sid = ids.count s.sid + 1 := by
        rw [List.count_cons, if_pos (by simpa using hs.symm)]
      rw [h2]
      dsimp only
      have h3 : s.lockShared - 1 - ids.count s.sid =
          s.lockShared - (ids.count s.sid + 1) := by
        omega
      rw [h3]
    · rw [if_neg (by simpa using hs)]
      have h2 : (i :: ids).count s.sid = ids.count s.sid := by
        rw [List.count_cons, if_neg (by simpa using Ne.symm hs)]
        rfl
      rw [h2]

theorem unlockExclList_mem (st : STMState) (ids : List Nat) :
    (unlockExclList st ids).mem = st.mem := by
  induction ids generalizing st with
  | nil => rfl
  | cons i ids ih =>
    show (unlockExclList (unlockExcl st i) ids).mem = st.mem
    rw [ih]
    rfl

theorem clearFreedList_mem (st : STMState) (ids : List Nat) :
    (clearFreedList st ids).mem = st.mem := by
  induction ids generalizing st with
  | nil => rfl
  | cons i ids ih =>
    show (clearFreedList (setFreed st i false) ids).mem = st.mem
    rw [ih]
    rfl

theorem rollback_rw_mem (st : STMState) (t : Transaction) (h : t.is_ro = false) :
    (rollback st t).mem = applyLogs t.logs st.mem := by
  unfold rollback
  rw [h]
  simp only [Bool.false_eq_true, if_false]
  rw [unlockSharedList_mem, unlockExclList_mem, unlockExclList_mem,
    clearFreedList_mem]

theorem rollback_ro_mem (st : STMState) (t : Transaction) (h : t.is_ro = true) :
    (rollback st t).mem = st.mem := by
  unfold rollback
  rw [h]
  simpa using unlockSharedList_mem st t.read_locks

theorem rollback_ro_segments (st : STMState) (t : Transaction)
    (h : t.is_ro = true) :
    (rollback st t).region.segments =
      st.region.segments.map
        (fun s => { s with lockShared := s.lockShared - t.read_locks.count s.sid }) := by
  unfold rollback
  rw [h]
  simpa using unlockSharedList_segments st t.read_locks

/-! ## Counting locks across the transaction's lock sets -/

theorem count_singleton_cond (sid x : Nat) :
    ([sid] : List Nat).count x = if x = sid then 1 else 0 := by
  by_cases h : x = sid <;> simp [h]

theorem count_bag_le_one_insert (A B C D : List Nat) (sid : Nat)
    (h : ∀ x, (A ++ B ++ C ++ D).count x ≤ 1)
    (hs : sid ∉ A ++ B ++ C ++ D) :
    (∀ x, ((A ++ [sid]) ++ B ++ C ++ D).count x ≤ 1) ∧
    (∀ x, (A ++ (B ++ [sid]) ++ C ++ D).count x ≤ 1) ∧
    (∀ x, (A ++ B ++ (C ++ [sid]) ++ D).count x ≤ 1) ∧
    (∀ x, (A ++ B ++ C ++ (D ++ [sid])).count x ≤ 1) := by
  have h0 : (A ++ B ++ C ++ D).count sid = 0 := List.count_eq_zero.mpr hs
  simp only [List.count_append] at h h0
  refine ⟨?_, ?_, ?_, ?_⟩ <;> intro x <;>
      simp only [List.count_append, count_singleton_cond] <;>
      by_cases hx : x = sid
  · subst hx; have := h x; rw [if_pos rfl]; omega
  · have := h x; rw [if_neg hx]; omega
  · subst hx; have := h x; rw [if_pos rfl]; omega
  · have := h x; rw [if_neg hx]; omega
  · subst hx; have := h x; rw [if_pos rfl]; omega
  · have := h x; rw [if_neg hx]; omega
  · subst hx; have := h x; rw [if_pos rfl]; omega
  · have := h x; rw [if_neg hx]; omega

theorem not_mem_lockBag_of_check_lock_false (t : Transaction) (l : Nat)
    (h : check_lock t l = false) : l ∉ lockBag t := by
  intro hm
  rw [← check_lock_iff] at hm
  rw [h] at hm
  exact Bool.false_ne_true hm

/-! ## Invariant of a sequence of successful writes -/

theorem writeSeq_invariant {st0' : STMState} {t0 : Transaction} {st : STMState}
    {t : Transaction} (h : WriteSeq st0' t0 st t) :
    t.is_ro = t0.is_ro ∧ applyLogs t.logs st.mem = applyLogs t0.logs st0'.mem := by
  induction h with
  | refl => exact ⟨rfl, rfl⟩
  | step src n tg lOk oOk hseq hok htx ih =>
    obtain ⟨t'', seg, seg', htx2, hfind, hfreed, hlogs, hro, hrl, hnsl, htfl,
      htf, hns, hlk, hmem, hfind2, hfr2, hsid2, hck2⟩ :=
      tm_write_ok_char _ _ _ _ _ _ _ hok
    rw [htx] at htx2
    cases htx2
    refine ⟨hro.trans ih.1, ?_⟩
    rw [hlogs, applyLogs_cons, hmem]
    dsimp only
    rw [memcpy_cancel _ tg n _ (by rw [List.length_take]; omega)]
    exact ih.2

/-! ## The claims -/

/-- Claim C1: for every read-write transaction that aborts after a sequence
of successful writes, `rollback` — replaying the undo log front-to-back,
restoring each record's `previous_bytes` at its `target_address`, the log
having been built by prepending — restores at every address the byte value
the shared memory held when the transaction began; in particular every byte
the transaction wrote (including ranges written more than once) holds its
exact pre-transaction value. -/
theorem C1_rollback_restores_pretransaction_bytes (st0' : STMState)
    (t0 : Transaction) (st : STMState) (t : Transaction)
    (hseq : WriteSeq st0' t0 st t) (hlogs : t0.logs = [])
    (hro : t0.is_ro = false) :
    ∀ a : Nat, (rollback st t).mem a = st0'.mem a := by
  have hinv := writeSeq_invariant hseq
  have hro' : t.is_ro = false := hinv.1.trans hro
  intro a
  rw [rollback_rw_mem st t hro', hinv.2, hlogs]
  rfl

/-- Witness for C1: a concrete transaction doing two overlapping writes
(addresses 100..103 then 102..105), then rolling back. -/
theorem C1_witness :
    (tx0.logs = [] ∧ tx0.is_ro = false) ∧
    (∀ a : Nat, (rollback wr2.st tx2).mem a = st0.mem a) := by
  have h1 : WriteSeq st0 tx0 wr1.st tx1 :=
    WriteSeq.step [1, 2, 3, 4] 4 100 true true (WriteSeq.refl st0 tx0) rfl rfl
  have h2 : WriteSeq st0 tx0 wr2.st tx2 :=
    WriteSeq.step [9, 9, 9, 9] 4 102 true true h1 rfl rfl
  exact ⟨⟨rfl, rfl⟩,
    C1_rollback_restores_pretransaction_bytes st0 tx0 wr2.st tx2 h2 rfl rfl⟩

/-- Claim C2: within one transaction, a successful write of bytes `W`
(length `n`) at address `A` followed by a read of `n` bytes from `A`
returns continue, copies exactly `W` into the read's private target buffer,
leaves the shared state untouched, keeps the transaction alive, and
attempts no second lock acquisition (the read sees the lock already held
via the `check_lock` already-holds check). -/
theorem C2_read_after_write (st : STMState) (t : Transaction) (src : List Nat)
    (n A : Nat) (lOk oOk : Bool) (tgt : List Nat) (t' : Transaction)
    (hw : (tm_write st t src n A lOk oOk).ok = true)
    (htx : (tm_write st t src n A lOk oOk).tx = some t')
    (hn : src.length = n) :
    (tm_read (tm_write st t src n A lOk oOk).st t' A n tgt).ok = true ∧
    (tm_read (tm_write st t src n A lOk oOk).st t' A n tgt).target.take n = src ∧
    (tm_read (tm_write st t src n A lOk oOk).st t' A n tgt).st =
      (tm_write st t src n A lOk oOk).st ∧
    (tm_read (tm_write st t src n A lOk oOk).st t' A n tgt).tx = some t' ∧
    (tm_read (tm_write st t src n A lOk oOk).st t' A n tgt).events = [] := by
  obtain ⟨t'', seg, seg', htx2, hfind, hfreed, hlogs, hro, hrl, hnsl, htfl,
    htf, hns, hlk, hmem, hfind2, hfr2, hsid2, hck2⟩ :=
    tm_write_ok_char _ _ _ _ _ _ _ hw
  rw [htx] at htx2
  cases htx2
  unfold tm_read
  rw [hfind2]
  dsimp only
  rw [if_pos hck2, if_neg (by simp [hfr2])]
  refine ⟨rfl, ?_, rfl, rfl, rfl⟩
  dsimp only
  subst hn
  rw [hmem, List.take_length, readMem_memcpy]
  exact List.take_left src _

/-- Witness for C2: write bytes 1,2,3,4 at address 100, then read 4 bytes
from 100 in the same transaction. -/
theorem C2_witness :
    (wr1.ok = true ∧ wr1.tx = some tx1 ∧ ([1, 2, 3, 4] : List Nat).length = 4) ∧
    ((tm_read wr1.st tx1 100 4 []).ok = true ∧
     (tm_read wr1.st tx1 100 4 []).target.take 4 = [1, 2, 3, 4] ∧
     (tm_read wr1.st tx1 100 4 []).st = wr1.st ∧
     (tm_read wr1.st tx1 100 4 []).tx = some tx1 ∧
     (tm_read wr1.st tx1 100 4 []).events = []) :=
  ⟨⟨rfl, rfl, rfl⟩,
    C2_read_after_write st0 tx0 [1, 2, 3, 4] 4 100 true true [] tx1 rfl rfl rfl⟩

/-- Claim C4: whenever read, write, or free returns false, the operation has
run `rollback` exactly once on the aborting transaction state and destroyed
the handle (the returned transaction is `none`); for a read-only transaction
the rollback leaves memory untouched and releases exactly the shared locks
in `read_locks`; the failure is visible only through the returned boolean. -/
theorem C4_abort_runs_rollback_once (st : STMState) (t : Transaction)
    (s n : Nat) (tgt : List Nat) (src : List Nat) (nw tg : Nat)
    (lOk oOk : Bool) (ft : Nat)
    (hr : (tm_read st t s n tgt).ok = false)
    (hw : (tm_write st t src nw tg lOk oOk).ok = false)
    (hf : (tm_free st t ft).ok = false) :
    ((tm_read st t s n tgt).tx = none ∧
      ((tm_read st t s n tgt).st = rollback st t ∨
        ∃ seg, findSeg st.region.segments s = some seg ∧ seg.freed = true ∧
          check_lock t seg.sid = false ∧ try_lock_shared seg = true ∧
          (tm_read st t s n tgt).st =
            rollback (acquireShared st seg.sid)
              { t with read_locks := t.read_locks ++ [seg.sid] })) ∧
    ((tm_write st t src nw tg lOk oOk).tx = none ∧
      ((tm_write st t src nw tg lOk oOk).st = rollback st t ∨
        ∃ seg, findSeg st.region.segments tg = some seg ∧
          check_lock t seg.sid = false ∧ try_lock seg = true ∧
          (tm_write st t src nw tg lOk oOk).st =
            rollback (acquireExcl st seg.sid)
              { t with locks := t.locks ++ [seg.sid] })) ∧
    ((tm_free st t ft).tx = none ∧ (tm_free st t ft).st = rollback st t) ∧
    (t.is_ro = true →
      (rollback st t).mem = st.mem ∧
      (rollback st t).region.segments =
        st.region.segments.map
          (fun sg => { sg with
            lockShared := sg.lockShared - t.read_locks.count sg.sid })) :=
  ⟨tm_read_abort_char st t s n tgt hr,
    tm_write_abort_char st t src nw tg lOk oOk hw,
    tm_free_abort_char st t ft hf,
    fun h => ⟨rollback_ro_mem st t h, rollback_ro_segments st t h⟩⟩

/-- Witness for C4: a read-only transaction whose read, write and free all
abort (address 999 lies in no segment). -/
theorem C4_witness :
    ((tm_read st0 txRO 999 8 []).ok = false ∧
     (tm_write st0 txRO [1] 8 999 true true).ok = false ∧
     (tm_free st0 txRO 999).ok = false) ∧
    ((tm_read st0 txRO 999 8 []).tx = none ∧
     (tm_write st0 txRO [1] 8 999 true true).tx = none ∧
     (tm_free st0 txRO 999).tx = none ∧
     (tm_free st0 txRO 999).st = rollback st0 txRO ∧
     (rollback st0 txRO).mem = st0.mem) := by
  have h := C4_abort_runs_rollback_once st0 txRO 999 8 [] [1] 8 999 true true
    999 rfl rfl rfl
  exact ⟨⟨rfl, rfl, rfl⟩, h.1.1, h.2.1.1, h.2.2.1.1, h.2.2.1.2,
    (h.2.2.2 rfl).1⟩

/-- Claim C7: a read whose source lies in a located segment and whose lock
is already held or can be acquired aborts without copying any bytes when the
segment is tombstoned (whoever set the tombstone): it returns false, leaves
the private target buffer untouched and destroys the handle. -/
theorem C7_tombstoned_read_aborts (st : STMState) (t : Transaction)
    (s n : Nat) (tgt : List Nat) (seg : Segment)
    (hf : findSeg st.region.segments s = some seg)
    (hfr : seg.freed = true)
    (hlk : check_lock t seg.sid = true ∨ try_lock_shared seg = true) :
    (tm_read st t s n tgt).ok = false ∧
    (tm_read st t s n tgt).target = tgt ∧
    (tm_read st t s n tgt).tx = none := by
  unfold tm_read
  rw [hf]
  dsimp only
  by_cases hc : check_lock t seg.sid
  · rw [if_pos hc, if_pos hfr]
    exact ⟨rfl, rfl, rfl⟩
  · rw [if_neg hc]
    have htl : try_lock_shared seg = true := hlk.resolve_left hc
    rw [if_pos htl, if_pos hfr]
    exact ⟨rfl, rfl, rfl⟩

/-- Witness for C7: reading address 100 of the tombstoned segment 0. -/
theorem C7_witness :
    (findSeg stT.region.segments 100 = some { seg0 with freed := true } ∧
     ({ seg0 with freed := true } : Segment).freed = true ∧
     (check_lock txRO ({ seg0 with freed := true } : Segment).sid = true ∨
       try_lock_shared { seg0 with freed := true } = true)) ∧
    ((tm_read stT txRO 100 8 [7, 7]).ok = false ∧
     (tm_read stT txRO 100 8 [7, 7]).target = [7, 7] ∧
     (tm_read stT txRO 100 8 [7, 7]).tx = none) :=
  ⟨⟨rfl, rfl, Or.inr rfl⟩,
    C7_tombstoned_read_aborts stT txRO 100 8 [7, 7] { seg0 with freed := true }
      rfl rfl (Or.inr rfl)⟩

/-- Claim C8: when either allocation inside `tm_alloc` fails, the call
returns `nomem` and the transaction is not aborted: no rollback runs, the
shared state (region's segment collection and memory) and the transaction's
logs and lock sets are all unchanged, so it may continue or commit. -/
theorem C8_alloc_nomem_nonfatal (st : STMState) (t : Transaction) (sz : Nat)
    (segOk memOk : Bool) (newSid newBase tgt0 : Nat)
    (h : segOk = false ∨ memOk = false) :
    (tm_alloc st t sz segOk memOk newSid newBase tgt0).res = Alloc.nomem ∧
    (tm_alloc st t sz segOk memOk newSid newBase tgt0).st = st ∧
    (tm_alloc st t sz segOk memOk newSid newBase tgt0).tx = t ∧
    (tm_alloc st t sz segOk memOk newSid newBase tgt0).target = tgt0 := by
  unfold tm_alloc
  rcases h with h | h
  · subst h
    simp
  · subst h
    cases segOk <;> simp

/-- Witness for C8: the segment-structure allocation fails. -/
theorem C8_witness :
    (false = false ∨ true = false) ∧
    ((tm_alloc st0 tx0 16 false true 5 300 0).res = Alloc.nomem ∧
     (tm_alloc st0 tx0 16 false true 5 300 0).st = st0 ∧
     (tm_alloc st0 tx0 16 false true 5 300 0).tx = tx0 ∧
     (tm_alloc st0 tx0 16 false true 5 300 0).target = 0) :=
  ⟨Or.inl rfl, C8_alloc_nomem_nonfatal st0 tx0 16 false true 5 300 0 (Or.inl rfl)⟩

/-- Claim C9 (frame property): a successful write modifies exactly the `n`
bytes starting at `target` — every address outside `[target, target + n)`
keeps its prior value and every address inside receives the corresponding
source byte — and a successful read leaves every shared byte unchanged. -/
theorem C9_frame (st : STMState) (t : Transaction) (src : List Nat)
    (n tg : Nat) (lOk oOk : Bool) (st2 : STMState) (t2 : Transaction)
    (s2 n2 : Nat) (tgt2 : List Nat)
    (hw : (tm_write st t src n tg lOk oOk).ok = true)
    (hn : src.length = n)
    (hr : (tm_read st2 t2 s2 n2 tgt2).ok = true) :
    (∀ a, a < tg ∨ tg + n ≤ a →
      (tm_write st t src n tg lOk oOk).st.mem a = st.mem a) ∧
    (∀ a, tg ≤ a → a < tg + n →
      (tm_write st t src n tg lOk oOk).st.mem a = src.getD (a - tg) 0) ∧
    (tm_read st2 t2 s2 n2 tgt2).st.mem = st2.mem := by
  obtain ⟨t'', seg, seg', htx2, hfind, hfreed, hlogs, hro, hrl, hnsl, htfl,
    htf, hns, hlk, hmem, hfind2, hfr2, hsid2, hck2⟩ :=
    tm_write_ok_char _ _ _ _ _ _ _ hw
  subst hn
  rw [List.take_length] at hmem
  refine ⟨?_, ?_, (tm_read_ok_char _ _ _ _ _ hr).1⟩
  · intro a ha
    rw [hmem]
    exact memcpy_out _ _ _ _ ha
  · intro a h1 h2
    rw [hmem, memcpy_in _ _ _ _ h1 h2]

/-- Witness for C9: the concrete write `wr1` and a successful read of the
untouched segment 1. -/
theorem C9_witness :
    (wr1.ok = true ∧ ([1, 2, 3, 4] : List Nat).length = 4 ∧
     (tm_read st0 txRO 200 8 []).ok = true) ∧
    ((∀ a, a < 100 ∨ 100 + 4 ≤ a → wr1.st.mem a = st0.mem a) ∧
     (∀ a, 100 ≤ a → a < 100 + 4 →
       wr1.st.mem a = ([1, 2, 3, 4] : List Nat).getD (a - 100) 0) ∧
     (tm_read st0 txRO 200 8 []).st.mem = st0.mem) :=
  ⟨⟨rfl, rfl, rfl⟩,
    C9_frame st0 tx0 [1, 2, 3, 4] 4 100 true true st0 txRO 200 8 [] rfl rfl rfl⟩

/-- Claim C10: `tm_alloc` never produces the abort outcome: every call
returns `success` or `nomem`, never `Alloc.abort`; consequently an alloc
call never triggers rollback and never destroys the transaction handle
(its result always carries a live transaction). -/
theorem C10_alloc_never_abort (st : STMState) (t : Transaction) (sz : Nat)
    (segOk memOk : Bool) (newSid newBase tgt0 : Nat) :
    (tm_alloc st t sz segOk memOk newSid newBase tgt0).res ≠ Alloc.abort ∧
    ((tm_alloc st t sz segOk memOk newSid newBase tgt0).res = Alloc.success ∨
      (tm_alloc st t sz segOk memOk newSid newBase tgt0).res = Alloc.nomem) := by
  unfold tm_alloc
  cases segOk <;> cases memOk <;> simp

/-- Claim C3 (code-bug exhibit): `tm_free` marks the located segment
tombstoned but never adds it to the transaction's `to_free` set, so the
commit (`tm_end`) deletes nothing: after freeing segment 1 (base 200) and
committing, the segment is still present in `region.segments` (tombstoned
and still exclusively locked), and a later locate of address 200 still
finds it — contradicting the claimed physical deletion at commit. -/
theorem C3_freed_segment_survives_commit :
    fr3.ok = true ∧
    tx3.to_free = [] ∧
    en3.committed = true ∧
    en3.st.region.segments =
      [seg0, { sid := 1, mem := 200, size := 8, freed := true,
               lockExcl := true, lockShared := 0 }] ∧
    findSeg en3.st.region.segments 200 =
      some { sid := 1, mem := 200, size := 8, freed := true,
             lockExcl := true, lockShared := 0 } :=
  ⟨rfl, rfl, rfl, rfl, rfl⟩

/-- Claim C5 counterexample: after writing at address 100 (recording
segment 0's lock in `locks`) and then freeing segment 0, `tm_free` has
unconditionally appended the same lock to `to_free_locks`: lock 0 appears
twice across the transaction's lock sets, so the at-most-once invariant is
not preserved by free. -/
theorem C5_counterexample :
    fr1.ok = true ∧
    AtMostOnce tx1 ∧
    lockBag tx1f = [0, 0] ∧
    ¬ AtMostOnce tx1f := by
  refine ⟨rfl, ?_, rfl, ?_⟩
  · intro x
    have h1 : (lockBag tx1).count x ≤ (lockBag tx1).length :=
      List.count_le_length _ _
    have h2 : (lockBag tx1).length = 1 := rfl
    omega
  · intro h
    have h1 := h 0
    have h2 : (lockBag tx1f).count 0 = 2 := rfl
    omega

/-- Claim C5 (amended): the at-most-once lock invariant is preserved by
read, write, and alloc (for alloc, provided the freshly created lock is
indeed fresh), and by free only when the transaction does not already hold
the located segment's lock; a free on an already-held lock records that
lock a second time (see the counterexample). -/
theorem C5_amended_lock_invariant (st : STMState) (t : Transaction)
    (s n : Nat) (tgt : List Nat) (src : List Nat) (nw tg : Nat)
    (lOk oOk : Bool) (sz : Nat) (segOk memOk : Bool)
    (newSid newBase tgt0 : Nat) (ft : Nat)
    (hA : AtMostOnce t) :
    (∀ t', (tm_read st t s n tgt).tx = some t' → AtMostOnce t') ∧
    (∀ t', (tm_write st t src nw tg lOk oOk).tx = some t' → AtMostOnce t') ∧
    (newSid ∉ lockBag t →
      AtMostOnce (tm_alloc st t sz segOk memOk newSid newBase tgt0).tx) ∧
    (∀ t' seg, (tm_free st t ft).tx = some t' →
      findSegBase st.region.segments ft = some seg →
      check_lock t seg.sid = false → AtMostOnce t') := by
  refine ⟨?_, ?_, ?_, ?_⟩
  · intro t' htx'
    obtain ⟨hl, hnsl, htfl, hlg, hr⟩ := tm_read_tx_char st t s n tgt t' htx'
    rcases hr with hr | ⟨seg, hfind, hchk, hr⟩
    · intro x
      have hx := hA x
      unfold lockBag at hx ⊢
      rw [hl, hnsl, htfl, hr]
      exact hx
    · have hs := not_mem_lockBag_of_check_lock_false t seg.sid hchk
      have hins := count_bag_le_one_insert t.locks t.read_locks
        t.new_seg_locks t.to_free_locks seg.sid hA hs
      intro x
      have hx := hins.2.1 x
      unfold lockBag
      rw [hl, hnsl, htfl, hr]
      exact hx
  · intro t' htx'
    cases hok : (tm_write st t src nw tg lOk oOk).ok with
    | false =>
      have hcontra := (tm_write_abort_char st t src nw tg lOk oOk hok).1
      rw [htx'] at hcontra
      cases hcontra
    | true =>
      obtain ⟨t'', seg, seg', htx2, hfind, hfreed, hlogs, hro, hrl, hnsl,
        htfl, htf, hns, hlk, hmem, hfind2, hfr2, hsid2, hck2⟩ :=
        tm_write_ok_char _ _ _ _ _ _ _ hok
      rw [htx'] at htx2
      cases htx2
      rcases hlk with hlk | ⟨hchk, hlk⟩
      · intro x
        have hx := hA x
        unfold lockBag at hx ⊢
        rw [hlk, hrl, hnsl, htfl]
        exact hx
      · have hs := not_mem_lockBag_of_check_lock_false t seg.sid hchk
        have hins := count_bag_le_one_insert t.locks t.read_locks
          t.new_seg_locks t.to_free_locks seg.sid hA hs
        intro x
        have hx := hins.1 x
        unfold lockBag
        rw [hlk, hrl, hnsl, htfl]
        exact hx
  · intro hfresh
    unfold tm_alloc
    cases segOk with
    | false => simpa using hA
    | true =>
      cases memOk with
      | false => simpa using hA
      | true =>
        have hins := count_bag_le_one_insert t.locks t.read_locks
          t.new_seg_locks t.to_free_locks newSid hA hfresh
        intro x
        have hx := hins.2.2.1 x
        unfold lockBag
        simpa using hx
  · intro t' seg htx' hfind hchk
    obtain ⟨seg2, hfind2, hl, hrl, hnsl, hlg, htf, hro, htfl⟩ :=
      tm_free_tx_char st t ft t' htx'
    rw [hfind] at hfind2
    cases hfind2
    have hs := not_mem_lockBag_of_check_lock_false t seg.sid hchk
    have hins := count_bag_le_one_insert t.locks t.read_locks
      t.new_seg_locks t.to_free_locks seg.sid hA hs
    intro x
    have hx := hins.2.2.2 x
    unfold lockBag
    rw [hl, hrl, hnsl, htfl]
    exact hx

/-- Witness for the amended C5 at concrete inputs, including a discharged
instance: the transaction after the concrete write `wr1` still satisfies
the invariant. -/
theorem C5_witness :
    AtMostOnce tx0 ∧
    ((∀ t', (tm_read st0 tx0 100 4 []).tx = some t' → AtMostOnce t') ∧
     (∀ t', (tm_write st0 tx0 [1, 2, 3, 4] 4 100 true true).tx = some t' →
       AtMostOnce t') ∧
     (5 ∉ lockBag tx0 → AtMostOnce (tm_alloc st0 tx0 16 true true 5 300 0).tx) ∧
     (∀ t' seg, (tm_free st0 tx0 200).tx = some t' →
       findSegBase st0.region.segments 200 = some seg →
       check_lock tx0 seg.sid = false → AtMostOnce t')) ∧
    AtMostOnce tx1 := by
  have hA : AtMostOnce tx0 := by
    intro x
    have h1 : (lockBag tx0).count x ≤ (lockBag tx0).length :=
      List.count_le_length _ _
    have h2 : (lockBag tx0).length = 0 := rfl
    omega
  refine ⟨hA, C5_amended_lock_invariant st0 tx0 100 4 [] [1, 2, 3, 4] 4 100
    true true 16 true true 5 300 0 200 hA, ?_⟩
  exact (C5_amended_lock_invariant st0 tx0 100 4 [] [1, 2, 3, 4] 4 100
    true true 16 true true 5 300 0 200 hA).2.1 tx1 rfl

/-- Claim C6 counterexample: the transaction `tx1` already holds segment
0's lock from its earlier write (`check_lock` returns true), yet `tm_free`
still attempts a `try_lock` acquisition on it — the acquisition attempt is
recorded before `check_lock` is consulted, contradicting "no second
acquisition is attempted". -/
theorem C6_counterexample :
    check_lock tx1 0 = true ∧
    fr1.ok = true ∧
    fr1.events = [LkEv.tryExcl 0 false] ∧
    fr1.events ≠ [] := by
  refine ⟨rfl, rfl, rfl, ?_⟩
  decide

/-- Claim C6 (amended): in read and write the `check_lock` already-holds
check is consulted before any try-acquire and no acquisition is attempted
when the transaction already holds the located segment's lock; in free,
however, a `try_lock` acquisition is always attempted first, `check_lock`
being consulted only after a failed acquisition; and `check_lock` returns
true iff the lock appears in one of the transaction's four held or pending
lock sets. -/
theorem C6_amended_acquisition_order (st : STMState) (t : Transaction)
    (s n : Nat) (tgt : List Nat) (src : List Nat) (nw tg ft l : Nat)
    (lOk oOk : Bool) (segR segW segF : Segment)
    (hfr : findSeg st.region.segments s = some segR)
    (hcr : check_lock t segR.sid = true)
    (hfw : findSeg st.region.segments tg = some segW)
    (hcw : check_lock t segW.sid = true)
    (hff : findSegBase st.region.segments ft = some segF) :
    (tm_read st t s n tgt).events = [] ∧
    (tm_write st t src nw tg lOk oOk).events = [] ∧
    (tm_free st t ft).events = [LkEv.tryExcl segF.sid (try_lock segF)] ∧
    (check_lock t l = true ↔ l ∈ lockBag t) :=
  ⟨tm_read_events_held st t s n tgt segR hfr hcr,
    tm_write_events_held st t src nw tg lOk oOk segW hfw hcw,
    tm_free_events st t ft segF hff,
    check_lock_iff t l⟩

/-- Witness for the amended C6: the transaction `tx1` holds segment 0's
lock; read and write at address 100 attempt no acquisition, while free
records a (failed) `try_lock` attempt. -/
theorem C6_witness :
    (findSeg wr1.st.region.segments 100 = some { seg0 with lockExcl := true } ∧
     check_lock tx1 ({ seg0 with lockExcl := true } : Segment).sid = true ∧
     findSegBase wr1.st.region.segments 100 =
       some { seg0 with lockExcl := true }) ∧
    ((tm_read wr1.st tx1 100 4 []).events = [] ∧
     (tm_write wr1.st tx1 [5, 5, 5, 5] 4 100 true true).events = [] ∧
     (tm_free wr1.st tx1 100).events =
       [LkEv.tryExcl ({ seg0 with lockExcl := true } : Segment).sid
         (try_lock { seg0 with lockExcl := true })] ∧
     (check_lock tx1 0 = true ↔ 0 ∈ lockBag tx1)) :=
  ⟨⟨rfl, rfl, rfl⟩,
    C6_amended_acquisition_order wr1.st tx1 100 4 [] [5, 5, 5, 5] 4 100 100 0
      true true { seg0 with lockExcl := true } { seg0 with lockExcl := true }
      { seg0 with lockExcl := true } rfl rfl rfl rfl rfl⟩

end STM
